import Mathlib

/-!
Verification of the wdb_backup TOC codec, identity rewriter, role
provisioner and process-spawn environment handling.

The definitions below are a shallow embedding of the Rust sources:
  * `src/restore_dialog/toc.rs`    (TOC codec and identity rewriter)
  * `src/restore_dialog/dialog.rs` (role provisioning and rollback,
                                    pg_restore spawn)
  * `src/backup_dialog/dialog.rs`  (pg_dump spawn)

Byte streams are `List Nat` with every element below 256.  Rust `i32`
values are `Int` with explicit wrapping where the Rust code relies on
release-mode two's-complement wrapping.  Rust `String` values produced by
`String::from_utf8_lossy` are lists of Unicode scalar values (`List Nat`).
-/

namespace WdbBackup

/-- The property of being representable as a Rust `i32`. -/
def i32range (v : Int) : Prop := -2147483648 ≤ v ∧ v < 2147483648

instance (v : Int) : Decidable (i32range v) := by
  unfold i32range; infer_instance

/-- Reinterpret an unsigned 32-bit magnitude as a signed `i32`
(`res as i32` in `read_int`, toc.rs line 119). -/
def toSigned32 (m : Nat) : Int :=
  if m < 2147483648 then (m : Int) else (m : Int) - 4294967296

/-- Wrapping `i32` negation (`-res_signed` in `read_int`, toc.rs line 121;
Rust release builds wrap on overflow, so negating `i32::MIN` yields
`i32::MIN`). -/
def negWrap32 (x : Int) : Int :=
  ((-x + 2147483648) % 4294967296) - 2147483648

/-- Little-endian 4-byte split of a `u32` magnitude
(`uval.to_le_bytes()` in `write_int`, toc.rs line 98). -/
def le4 (n : Nat) : List Nat :=
  [n % 256, n / 256 % 256, n / 65536 % 256, n / 16777216 % 256]

/-- Embedding of `write_int` (toc.rs lines 89-104): one sign byte
(0 nonnegative, 1 negative) followed by the 4-byte little-endian
magnitude.  For `i32::MIN` the Rust `-val as u32` wraps to `2^31`,
matching `(-v).toNat`. -/
def write_int (v : Int) : List Nat :=
  if 0 ≤ v then 0 :: le4 v.toNat else 1 :: le4 (-v).toNat

/-- Recompose a `u32` from five bytes sign-first, as `read_int`
(toc.rs lines 106-125) does: magnitude from bytes 1..4 little-endian,
then the sign byte decides negation. -/
def readIntCore (b0 b1 b2 b3 b4 : Nat) : Int :=
  if b0 > 0 then
    negWrap32 (toSigned32 ((b1 + b2 * 256 + b3 * 65536 + b4 * 16777216) % 4294967296))
  else
    toSigned32 ((b1 + b2 * 256 + b3 * 65536 + b4 * 16777216) % 4294967296)

/-- Embedding of `read_int` (toc.rs lines 106-125): consumes exactly five
bytes, fails if fewer are available (`read_exact`). -/
def read_int (l : List Nat) : Option (Int × List Nat) :=
  match l with
  | b0 :: b1 :: b2 :: b3 :: b4 :: rest => some (readIntCore b0 b1 b2 b3 b4, rest)
  | _ => none

/-- Reads exactly `n` bytes (`read_exact` on a length-`n` buffer): fails when
fewer than `n` bytes remain. -/
def readBytes (n : Nat) (l : List Nat) : Option (List Nat × List Nat) :=
  if n ≤ l.length then some (l.take n, l.drop n) else none

/-- The `usize` to `i32` cast (`bytes.len() as i32` in toc.rs line 169):
truncate to 32 bits, then reinterpret as signed. -/
def i32ofNat (n : Nat) : Int := toSigned32 (n % 4294967296)

/-- Embedding of `read_string_opt` (toc.rs lines 150-164): a 5-byte length
prefix; negative length denotes absence, zero a present-but-empty value,
otherwise the next `len` bytes are the value. -/
def read_string_opt (l : List Nat) : Option (Option (List Nat) × List Nat) :=
  match read_int l with
  | none => none
  | some (len, r) =>
    if len < 0 then some (none, r)
    else if len = 0 then some (some [], r)
    else
      match readBytes len.toNat r with
      | none => none
      | some (b, r2) => some (some b, r2)

/-- Embedding of `write_string_opt` (toc.rs lines 166-177): a present value
is its length (cast to `i32`) then its bytes; an absent value is the
encoding of `-1`. -/
def write_string_opt (o : Option (List Nat)) : List Nat :=
  match o with
  | some b => write_int (i32ofNat b.length) ++ b
  | none => write_int (-1)

/-- Embedding of `copy_string_opt` (toc.rs lines 179-183): read an optional
string and immediately re-serialize it; yields the bytes written, the
value, and the remaining input. -/
def copy_string_opt (l : List Nat) : Option (List Nat × Option (List Nat) × List Nat) :=
  match read_string_opt l with
  | none => none
  | some (o, r) => some (write_string_opt o, o, r)

/-- Embedding of `copy_string` (toc.rs lines 185-191): like
`copy_string_opt` but an absent value is an error. -/
def copy_string (l : List Nat) : Option (List Nat × List Nat) :=
  match copy_string_opt l with
  | some (w, some _, r) => some (w, r)
  | _ => none

/-- UTF-8 encoding of one Unicode scalar value, by arithmetic on the code
point (models Rust `String::into_bytes` for each char). -/
def utf8EncodeChar (c : Nat) : List Nat :=
  if c < 128 then [c]
  else if c < 2048 then [192 + c / 64, 128 + c % 64]
  else if c < 65536 then [224 + c / 4096, 128 + c / 64 % 64, 128 + c % 64]
  else [240 + c / 262144, 128 + c / 4096 % 64, 128 + c / 64 % 64, 128 + c % 64]

/-- UTF-8 encoding of a sequence of scalar values. -/
def utf8Encode (s : List Nat) : List Nat := (s.map utf8EncodeChar).flatten

/-- A UTF-8 continuation byte. -/
def isCont (b : Nat) : Bool := 128 ≤ b && b ≤ 191

/-- One step of UTF-8 decoding: returns the decoded scalar value (U+FFFD
for ill-formed input), the number of bytes consumed (the maximal subpart
of the ill-formed sequence, as in Rust `String::from_utf8_lossy`), and
whether the sequence was well-formed. -/
def utf8DecodeStep : List Nat → Nat × Nat × Bool
  | [] => (65533, 1, false)
  | b0 :: rest =>
    if b0 < 128 then (b0, 1, true)
    else if 194 ≤ b0 && b0 ≤ 223 then
      match rest with
      | b1 :: _ =>
        if isCont b1 then ((b0 - 192) * 64 + (b1 - 128), 2, true)
        else (65533, 1, false)
      | [] => (65533, 1, false)
    else if 224 ≤ b0 && b0 ≤ 239 then
      match rest with
      | b1 :: rest2 =>
        if (b0 == 224 && 160 ≤ b1 && b1 ≤ 191) ||
           (225 ≤ b0 && b0 ≤ 236 && isCont b1) ||
           (b0 == 237 && 128 ≤ b1 && b1 ≤ 159) ||
           (238 ≤ b0 && isCont b1) then
          match rest2 with
          | b2 :: _ =>
            if isCont b2 then
              ((b0 - 224) * 4096 + (b1 - 128) * 64 + (b2 - 128), 3, true)
            else (65533, 2, false)
          | [] => (65533, 2, false)
        else (65533, 1, false)
      | [] => (65533, 1, false)
    else if 240 ≤ b0 && b0 ≤ 244 then
      match rest with
      | b1 :: rest2 =>
        if (b0 == 240 && 144 ≤ b1 && b1 ≤ 191) ||
           (241 ≤ b0 && b0 ≤ 243 && isCont b1) ||
           (b0 == 244 && 128 ≤ b1 && b1 ≤ 143) then
          match rest2 with
          | b2 :: rest3 =>
            if isCont b2 then
              match rest3 with
              | b3 :: _ =>
                if isCont b3 then
                  ((b0 - 240) * 262144 + (b1 - 128) * 4096 + (b2 - 128) * 64 + (b3 - 128), 4, true)
                else (65533, 3, false)
              | [] => (65533, 3, false)
            else (65533, 2, false)
          | [] => (65533, 2, false)
        else (65533, 1, false)
      | [] => (65533, 1, false)
    else (65533, 1, false)

/-- Fuelled lossy UTF-8 decoding; fuel at least the input length suffices
because every step consumes at least one byte. -/
def utf8LossyAux : Nat → List Nat → List Nat
  | 0, _ => []
  | _ + 1, [] => []
  | fuel + 1, b :: rest =>
    match utf8DecodeStep (b :: rest) with
    | (c, k, _) => c :: utf8LossyAux fuel ((b :: rest).drop k)

/-- Model of `String::from_utf8_lossy`: decode bytes to scalar values,
replacing each maximal ill-formed subsequence part by U+FFFD. -/
def utf8Lossy (l : List Nat) : List Nat := utf8LossyAux l.length l

/-- Fuelled UTF-8 validity check, mirroring `utf8LossyAux`. -/
def utf8ValidAux : Nat → List Nat → Bool
  | 0, l => l.isEmpty
  | _ + 1, [] => true
  | fuel + 1, b :: rest =>
    match utf8DecodeStep (b :: rest) with
    | (_, k, ok) => ok && utf8ValidAux fuel ((b :: rest).drop k)

/-- Whether a byte sequence is well-formed UTF-8. -/
def utf8Valid (l : List Nat) : Bool := utf8ValidAux l.length l

/-- Whether the first list is a prefix of the second (Boolean). -/
def listStarts : List Nat → List Nat → Bool
  | [], _ => true
  | _ :: _, [] => false
  | a :: ns, b :: ss => a == b && listStarts ns ss

/-- Fuelled core of Rust `str::replace` for a nonempty pattern: scan left
to right, at a match emit the replacement and skip the pattern, otherwise
emit one element. -/
def replaceAux : Nat → List Nat → List Nat → List Nat → List Nat
  | 0, s, _, _ => s
  | _ + 1, [], _, _ => []
  | fuel + 1, a :: rest, needle, repl =>
    if !needle.isEmpty && listStarts needle (a :: rest) then
      repl ++ replaceAux fuel ((a :: rest).drop needle.length) needle repl
    else a :: replaceAux fuel rest needle repl

/-- Model of Rust `str::replace` on scalar-value sequences (all call sites
in toc.rs use nonempty patterns, where this model is exact). -/
def replaceL (s needle repl : List Nat) : List Nat :=
  replaceAux s.length s needle repl

/-- Embedding of the `TocEntry` struct (toc.rs lines 30-49): field bytes
are kept raw (`Vec<u8>` as `List Nat`). -/
structure TocEntry where
  dump_id : Int
  had_dumper : Int
  table_oid : Option (List Nat)
  catalog_oid : Option (List Nat)
  tag : Option (List Nat)
  description : Option (List Nat)
  sectionVal : Int
  defn : Option (List Nat)
  drop_stmt : Option (List Nat)
  copy_stmt : Option (List Nat)
  namespc : Option (List Nat)
  tablespace : Option (List Nat)
  tableam : Option (List Nat)
  owner : Option (List Nat)
  table_with_oids : Option (List Nat)
  deps : List (List Nat)
  filename : Option (List Nat)
deriving DecidableEq

/-- Embedding of `binopt_to_string` (toc.rs lines 193-200): lossy UTF-8
decode of a present value, the empty string for an absent one. -/
def binopt_to_string (o : Option (List Nat)) : List Nat :=
  match o with
  | some b => utf8Lossy b
  | none => []

/-- Reads dependency strings until the `None` terminator
(the loop in `read_toc_entry`, toc.rs lines 229-235), fuelled by the
number of strings still possible. -/
def readDepsAux : Nat → List Nat → Option (List (List Nat) × List Nat)
  | 0, _ => none
  | fuel + 1, l =>
    match read_string_opt l with
    | none => none
    | some (none, r) => some ([], r)
    | some (some d, r) =>
      match readDepsAux fuel r with
      | none => none
      | some (ds, r2) => some (d :: ds, r2)

/-- Embedding of `read_toc_entry` (toc.rs lines 213-256). -/
def read_toc_entry (l : List Nat) : Option (TocEntry × List Nat) :=
  match read_int l with
  | none => none
  | some (dump_id, l1) =>
  match read_int l1 with
  | none => none
  | some (had_dumper, l2) =>
  match read_string_opt l2 with
  | none => none
  | some (table_oid, l3) =>
  match read_string_opt l3 with
  | none => none
  | some (catalog_oid, l4) =>
  match read_string_opt l4 with
  | none => none
  | some (tag, l5) =>
  match read_string_opt l5 with
  | none => none
  | some (description, l6) =>
  match read_int l6 with
  | none => none
  | some (sectionVal, l7) =>
  match read_string_opt l7 with
  | none => none
  | some (defn, l8) =>
  match read_string_opt l8 with
  | none => none
  | some (drop_stmt, l9) =>
  match read_string_opt l9 with
  | none => none
  | some (copy_stmt, l10) =>
  match read_string_opt l10 with
  | none => none
  | some (namespc, l11) =>
  match read_string_opt l11 with
  | none => none
  | some (tablespace, l12) =>
  match read_string_opt l12 with
  | none => none
  | some (tableam, l13) =>
  match read_string_opt l13 with
  | none => none
  | some (owner, l14) =>
  match read_string_opt l14 with
  | none => none
  | some (table_with_oids, l15) =>
  match readDepsAux (l15.length + 1) l15 with
  | none => none
  | some (deps, l16) =>
  match read_string_opt l16 with
  | none => none
  | some (filename, l17) =>
    some ({ dump_id, had_dumper, table_oid, catalog_oid, tag, description,
            sectionVal, defn, drop_stmt, copy_stmt, namespc, tablespace,
            tableam, owner, table_with_oids, deps, filename }, l17)

/-- Embedding of `write_toc_entry` (toc.rs lines 258-280): the field
sequence, each dependency as a present string, a `None` terminator, then
the file name. -/
def write_toc_entry (te : TocEntry) : List Nat :=
  write_int te.dump_id ++
  write_int te.had_dumper ++
  write_string_opt te.table_oid ++
  write_string_opt te.catalog_oid ++
  write_string_opt te.tag ++
  write_string_opt te.description ++
  write_int te.sectionVal ++
  write_string_opt te.defn ++
  write_string_opt te.drop_stmt ++
  write_string_opt te.copy_stmt ++
  write_string_opt te.namespc ++
  write_string_opt te.tablespace ++
  write_string_opt te.tableam ++
  write_string_opt te.owner ++
  write_string_opt te.table_with_oids ++
  (te.deps.map (fun d => write_string_opt (some d))).flatten ++
  write_string_opt none ++
  write_string_opt te.filename

/-- Scalar values of a Lean string literal, for writing the fixed tokens
of toc.rs (`"_dbo"`, `"SCHEMA"`, ...). -/
def strCodes (s : String) : List Nat := s.toList.map Char.toNat

/-- Boolean suffix test (`str::ends_with`; on ASCII suffixes the byte-wise
Rust test agrees with this scalar-value test). -/
def listEnds (suf s : List Nat) : Bool :=
  decide (suf.length ≤ s.length) && decide (s.drop (s.length - suf.length) = suf)

/-- Embedding of `replace_dbname` (toc.rs lines 350-379): derives the
three role tokens from the original name, appends a trailing dot to the
needles when `can_add_dot` holds and the entry tag is not one of the four
exempted role/schema tags, then substitutes through the lossy UTF-8
decoding of the field. -/
def replace_dbname (te : TocEntry) (opt : Option (List Nat))
    (orig_dbname dbname : List Nat) (can_add_dot : Bool) : Option (List Nat) :=
  match opt with
  | none => none
  | some bytes =>
    let te_tag := binopt_to_string te.tag
    let base_needle_dbo := orig_dbname ++ strCodes "_dbo"
    let base_replacement_dbo := dbname ++ strCodes "_dbo"
    let base_needle_db_owner := orig_dbname ++ strCodes "_db_owner"
    let base_replacement_db_owner := dbname ++ strCodes "_db_owner"
    let base_needle_guest := orig_dbname ++ strCodes "_guest"
    let base_replacement_guest := dbname ++ strCodes "_guest"
    let add_dot : Bool :=
      can_add_dot &&
      decide (te_tag ≠ orig_dbname ++ strCodes "_dbo") &&
      decide (te_tag ≠ strCodes "SCHEMA " ++ (orig_dbname ++ strCodes "_dbo")) &&
      decide (te_tag ≠ orig_dbname ++ strCodes "_guest") &&
      decide (te_tag ≠ strCodes "SCHEMA " ++ (orig_dbname ++ strCodes "_guest"))
    let dot : List Nat := if add_dot then [46] else []
    let needle_dbo := base_needle_dbo ++ dot
    let replacement_dbo := base_replacement_dbo ++ dot
    let needle_db_owner := base_needle_db_owner ++ dot
    let replacement_db_owner := base_replacement_db_owner ++ dot
    let needle_guest := base_needle_guest ++ dot
    let replacement_guest := base_replacement_guest ++ dot
    let res :=
      replaceL (replaceL (replaceL (utf8Lossy bytes)
        needle_dbo replacement_dbo)
        needle_db_owner replacement_db_owner)
        needle_guest replacement_guest
    some (utf8Encode res)

/-- Embedding of `modify_toc_entry` (toc.rs lines 381-392): no-op when the
original name is still unknown; otherwise rewrite definition, copy
statement, drop statement (qualify-eligible), namespace, owner, and the
tag last, each step reading the current entry (whose tag is unchanged
until the final step). -/
def modify_toc_entry (te : TocEntry) (orig_dbname dbname : List Nat) : TocEntry :=
  if orig_dbname = [] then te
  else
    let te1 := { te with defn := replace_dbname te te.defn orig_dbname dbname true }
    let te2 := { te1 with copy_stmt := replace_dbname te1 te1.copy_stmt orig_dbname dbname true }
    let te3 := { te2 with drop_stmt := replace_dbname te2 te2.drop_stmt orig_dbname dbname true }
    let te4 := { te3 with namespc := replace_dbname te3 te3.namespc orig_dbname dbname false }
    let te5 := { te4 with owner := replace_dbname te4 te4.owner orig_dbname dbname false }
    { te5 with tag := replace_dbname te5 te5.tag orig_dbname dbname false }

/-- The fixed 5-byte magic `PGDMP`. -/
def pgdmpMagic : List Nat := [80, 71, 68, 77, 80]

/-- Embedding of `copy_magic` (toc.rs lines 52-60). -/
def copy_magic (l : List Nat) : Option (List Nat × List Nat) :=
  match readBytes 5 l with
  | none => none
  | some (buf, r) => if buf = pgdmpMagic then some (buf, r) else none

/-- Embedding of `copy_version` (toc.rs lines 62-70).  The source checks
`1u8 != buf[0] && 14u8 != buf[1]`: it errors only when the major byte
differs from 1 AND the minor byte differs from 14. -/
def copy_version (l : List Nat) : Option (List Nat × List Nat) :=
  match readBytes 3 l with
  | none => none
  | some (buf, r) =>
    match buf with
    | [b0, b1, b2] =>
      if b0 ≠ 1 ∧ b1 ≠ 14 then none else some ([b0, b1, b2], r)
    | _ => none

/-- Embedding of `copy_flags` (toc.rs lines 72-86): int size 4, offset
size 8, format 3, each checked separately. -/
def copy_flags (l : List Nat) : Option (List Nat × List Nat) :=
  match readBytes 3 l with
  | none => none
  | some (buf, r) =>
    match buf with
    | [b0, b1, b2] =>
      if b0 ≠ 4 then none
      else if b1 ≠ 8 then none
      else if b2 ≠ 3 then none
      else some ([b0, b1, b2], r)
    | _ => none

/-- Embedding of `copy_int` (toc.rs lines 127-131): read a value and
re-serialize it; yields the bytes written, the value, and the rest. -/
def copy_int (l : List Nat) : Option (List Nat × Int × List Nat) :=
  match read_int l with
  | none => none
  | some (v, r) => some (write_int v, v, r)

/-- The `i32` to `u32` cast used for the date/time components
(`month as u32` etc. in toc.rs lines 143-145). -/
def u32cast (i : Int) : Nat := (i % 4294967296).toNat

/-- Proleptic-Gregorian leap year, as chrono uses. -/
def isLeapYear (y : Int) : Bool :=
  (y % 4 == 0 && y % 100 != 0) || y % 400 == 0

/-- Days in a calendar month. -/
def daysInMonth (y : Int) (m : Nat) : Nat :=
  if m = 1 ∨ m = 3 ∨ m = 5 ∨ m = 7 ∨ m = 8 ∨ m = 10 ∨ m = 12 then 31
  else if m = 4 ∨ m = 6 ∨ m = 9 ∨ m = 11 then 30
  else if m = 2 then (if isLeapYear y then 29 else 28)
  else 0

/-- Model of chrono `NaiveDate::from_ymd_opt` succeeding: month 1..=12,
day within the month, year within chrono's representable range. -/
def validDate (y month day : Int) : Bool :=
  let m := u32cast month
  let d := u32cast day
  decide (-262143 ≤ y) && decide (y ≤ 262142) && decide (1 ≤ m) && decide (m ≤ 12) &&
  decide (1 ≤ d) && decide (d ≤ daysInMonth y m)

/-- Model of chrono `NaiveTime::from_hms_opt` succeeding. -/
def validTime (hour minute sec : Int) : Bool :=
  decide (u32cast hour < 24) && decide (u32cast minute < 60) && decide (u32cast sec < 60)

/-- Embedding of `copy_timestamp` (toc.rs lines 133-148): copies seven
integers (sec, min, hour, day, month, year, DST), then fails unless the
stored month value taken directly as the calendar month (the source does
not add 1 to pg_dump's zero-based month) and the remaining components
form a valid date and time. -/
def copy_timestamp (l : List Nat) : Option (List Nat × List Nat) :=
  match copy_int l with
  | none => none
  | some (w1, sec, l) =>
  match copy_int l with
  | none => none
  | some (w2, minute, l) =>
  match copy_int l with
  | none => none
  | some (w3, hour, l) =>
  match copy_int l with
  | none => none
  | some (w4, day, l) =>
  match copy_int l with
  | none => none
  | some (w5, month, l) =>
  match copy_int l with
  | none => none
  | some (w6, year, l) =>
  match copy_int l with
  | none => none
  | some (w7, _is_dst, l) =>
    if validDate (year + 1900) month day && validTime hour minute sec then
      some (w1 ++ w2 ++ w3 ++ w4 ++ w5 ++ w6 ++ w7, l)
    else none

/-- Embedding of `copy_header` (toc.rs lines 282-292): magic, version,
flags, compression flag, timestamp, then three required strings (source
database name, server version, dump-tool version). -/
def copy_header (l : List Nat) : Option (List Nat × List Nat) :=
  match copy_magic l with
  | none => none
  | some (m, l) =>
  match copy_version l with
  | none => none
  | some (v, l) =>
  match copy_flags l with
  | none => none
  | some (f, l) =>
  match copy_int l with
  | none => none
  | some (ci, _comp, l) =>
  match copy_timestamp l with
  | none => none
  | some (ts, l) =>
  match copy_string l with
  | none => none
  | some (d, l) =>
  match copy_string l with
  | none => none
  | some (sv, l) =>
  match copy_string l with
  | none => none
  | some (pv, l) =>
    some (m ++ v ++ f ++ ci ++ ts ++ d ++ sv ++ pv, l)

/-- A well-formed header for the serializer below: version bytes the
parser accepts, `i32`-ranged integers, a chrono-valid timestamp, and
present strings of `i32`-ranged length. -/
structure TocHeader where
  vmaj : Nat
  vmin : Nat
  vrev : Nat
  comp : Int
  tsSec : Int
  tsMin : Int
  tsHour : Int
  tsDay : Int
  tsMonth : Int
  tsYear : Int
  tsIsDst : Int
  dbname : List Nat
  version_server : List Nat
  version_pgdump : List Nat
deriving DecidableEq

/-- Serialization of a header record in the on-disk layout (the layout
`copy_header` consumes and reproduces). -/
def encodeHeader (h : TocHeader) : List Nat :=
  pgdmpMagic ++ [h.vmaj, h.vmin, h.vrev] ++ [4, 8, 3] ++
  write_int h.comp ++ write_int h.tsSec ++ write_int h.tsMin ++ write_int h.tsHour ++
  write_int h.tsDay ++ write_int h.tsMonth ++ write_int h.tsYear ++ write_int h.tsIsDst ++
  write_string_opt (some h.dbname) ++ write_string_opt (some h.version_server) ++
  write_string_opt (some h.version_pgdump)

/-- A byte vector whose length fits an `i32` and whose elements are
bytes. -/
def wfStr (b : List Nat) : Prop := b.length < 2147483648 ∧ ∀ x ∈ b, x < 256

instance (b : List Nat) : Decidable (wfStr b) := by
  unfold wfStr; infer_instance

/-- Well-formedness of an optional field. -/
def wfOpt (o : Option (List Nat)) : Prop :=
  match o with
  | none => True
  | some b => wfStr b

instance (o : Option (List Nat)) : Decidable (wfOpt o) := by
  unfold wfOpt; cases o <;> infer_instance

/-- Well-formedness of a header record. -/
def wfHeader (h : TocHeader) : Prop :=
  (h.vmaj = 1 ∨ h.vmin = 14) ∧ h.vmaj < 256 ∧ h.vmin < 256 ∧ h.vrev < 256 ∧
  i32range h.comp ∧ i32range h.tsSec ∧ i32range h.tsMin ∧ i32range h.tsHour ∧
  i32range h.tsDay ∧ i32range h.tsMonth ∧ i32range h.tsYear ∧ i32range h.tsIsDst ∧
  validDate (h.tsYear + 1900) h.tsMonth h.tsDay = true ∧
  validTime h.tsHour h.tsMin h.tsSec = true ∧
  wfStr h.dbname ∧ wfStr h.version_server ∧ wfStr h.version_pgdump

instance (h : TocHeader) : Decidable (wfHeader h) := by
  unfold wfHeader; infer_instance

/-- Well-formedness of a TOC entry: `i32`-ranged integers and fields whose
lengths fit an `i32`. -/
def wfEntry (te : TocEntry) : Prop :=
  i32range te.dump_id ∧ i32range te.had_dumper ∧ i32range te.sectionVal ∧
  wfOpt te.table_oid ∧ wfOpt te.catalog_oid ∧ wfOpt te.tag ∧ wfOpt te.description ∧
  wfOpt te.defn ∧ wfOpt te.drop_stmt ∧ wfOpt te.copy_stmt ∧ wfOpt te.namespc ∧
  wfOpt te.tablespace ∧ wfOpt te.tableam ∧ wfOpt te.owner ∧ wfOpt te.table_with_oids ∧
  (∀ d ∈ te.deps, wfStr d) ∧ wfOpt te.filename

instance (te : TocEntry) : Decidable (wfEntry te) := by
  unfold wfEntry; infer_instance

/-- Tag-to-filename map built while scanning entries.  The source uses a
`HashMap` whose `insert` overwrites; prepending with a first-match lookup
is observationally the same for `get`. -/
def mapInsert (m : List (List Nat × List Nat)) (k v : List Nat) :
    List (List Nat × List Nat) := (k, v) :: m

/-- Map lookup (`HashMap::get`). -/
def mapGet (m : List (List Nat × List Nat)) (k : List Nat) : Option (List Nat) :=
  match m with
  | [] => none
  | (k0, v0) :: rest => if k0 = k then some v0 else mapGet rest k

/-- The schema-entry detection of `rewrite_toc` (toc.rs line 413): the
entry tag ends in `_dbo` and its description is exactly `SCHEMA`. -/
def isMatch (te : TocEntry) : Prop :=
  listEnds (strCodes "_dbo") (binopt_to_string te.tag) = true ∧
  binopt_to_string te.description = strCodes "SCHEMA"

instance (te : TocEntry) : Decidable (isMatch te) := by
  unfold isMatch; infer_instance

/-- The original name computed from a matching schema entry (toc.rs line
414): Rust takes `te_tag.len() - 4` CHARS of the tag, where `len()` is
the BYTE length of the lossy string. -/
def computedOrig (te : TocEntry) : List Nat :=
  (binopt_to_string te.tag).take
    ((utf8Encode (binopt_to_string te.tag)).length - (strCodes "_dbo").length)

/-- The update of the discovered original name at one entry. -/
def entryOrigUpdate (te : TocEntry) (orig : List Nat) : List Nat :=
  if isMatch te then computedOrig te else orig

/-- The update of the tag-to-filename map at one entry (toc.rs lines
416-418): record only entries with a nonempty data-file name. -/
def entryMapUpdate (te : TocEntry) (map : List (List Nat × List Nat)) :
    List (List Nat × List Nat) :=
  if binopt_to_string te.filename ≠ [] then
    mapInsert map (binopt_to_string te.tag) (binopt_to_string te.filename)
  else map

/-- The original name after scanning a list of entries. -/
def scanOrig (es : List TocEntry) (orig : List Nat) : List Nat :=
  es.foldl (fun o te => entryOrigUpdate te o) orig

/-- The tag map after scanning a list of entries. -/
def scanMap (es : List TocEntry) (map : List (List Nat × List Nat)) :
    List (List Nat × List Nat) :=
  es.foldl (fun m te => entryMapUpdate te m) map

/-- The per-entry loop of `rewrite_toc` (toc.rs lines 408-421): read an
entry, discover the original database name from a `SCHEMA` entry whose
tag ends in `_dbo` (taking `byte-length - 4` characters of the tag, as
the source does), record the tag-to-filename mapping, rewrite the entry
with the currently known original name, and serialize it.  Returns the
bytes written, the final original name, the map, and the unconsumed
input. -/
def entriesLoop (dbname : List Nat) :
    Nat → List Nat → List Nat → List (List Nat × List Nat) →
    Option (List Nat × List Nat × List (List Nat × List Nat) × List Nat)
  | 0, l, orig, map => some ([], orig, map, l)
  | n + 1, l, orig, map =>
    match read_toc_entry l with
    | none => none
    | some (te, r) =>
      let orig2 := entryOrigUpdate te orig
      let map2 := entryMapUpdate te map
      let te2 := modify_toc_entry te orig2 dbname
      match entriesLoop dbname n r orig2 map2 with
      | none => none
      | some (out, o3, m3, r3) => some (write_toc_entry te2 ++ out, o3, m3, r3)

/-- The streaming portion of `rewrite_toc` (toc.rs lines 394-421): copy
the header, copy the entry count, then run the entry loop `count` times
(`for _ in 0..toc_count` runs `count.toNat` times).  Returns the output
bytes together with the discovered original name and the tag map. -/
def tocPass (stream : List Nat) (dbname : List Nat) :
    Option (List Nat × List Nat × List (List Nat × List Nat)) :=
  match copy_header stream with
  | none => none
  | some (hout, r1) =>
    match copy_int r1 with
    | none => none
    | some (cout, cnt, r2) =>
      match entriesLoop dbname cnt.toNat r2 [] [] with
      | none => none
      | some (eout, orig, map, _r3) => some (hout ++ cout ++ eout, orig, map)

/-- The lookup structure of `rewrite_dbname_in_tables` (toc.rs lines
323-348): each of the four tracked catalog tables must have been mapped
to a data file, otherwise the pass fails with the corresponding error.
The per-file row rewriting (`rewrite_table`) acts on separate data files,
outside the TOC byte-stream model. -/
def rewrite_dbname_in_tables (map : List (List Nat × List Nat)) : Except String Unit :=
  match mapGet map (strCodes "babelfish_authid_user_ext") with
  | none => Except.error "Table not found: babelfish_authid_user_ext"
  | some _ =>
  match mapGet map (strCodes "babelfish_function_ext") with
  | none => Except.error "Table not found: babelfish_function_ext"
  | some _ =>
  match mapGet map (strCodes "babelfish_namespace_ext") with
  | none => Except.error "Table not found: babelfish_namespace_ext"
  | some _ =>
  match mapGet map (strCodes "babelfish_sysdatabases") with
  | none => Except.error "Table not found: babelfish_sysdatabases"
  | some _ => Except.ok ()

/-- Embedding of `rewrite_toc` (toc.rs lines 394-430) over a byte stream:
the streaming pass, then the table-map lookups.  On success the rewritten
TOC bytes replace the original file (the rename steps are file-system
actions outside the byte-stream model). -/
def rewrite_toc (stream : List Nat) (dbname : List Nat) : Except String (List Nat) :=
  match tocPass stream dbname with
  | none => Except.error "Format check failure"
  | some (out, _orig, map) =>
    match rewrite_dbname_in_tables map with
    | Except.error e => Except.error e
    | Except.ok _ => Except.ok out

/-- Embedding of `create_role_if_not_exist` (restore dialog.rs lines
141-153) over an abstract `pg_roles` state (the list of existing role
names): checks existence of `{dbname}_{role}`, creates the role if
absent, and returns the created name only in that case. -/
def create_role_if_not_exist (st : List (List Char)) (dbname : List Char)
    (role : String) : List (List Char) × Option (List Char) :=
  let rolname := dbname ++ ("_".toList ++ role.toList)
  if rolname ∈ st then (st, none) else (st ++ [rolname], some rolname)

/-- Embedding of `restore_global_data` (restore dialog.rs lines 155-174):
ensures the three ownership roles in order and collects the names of the
roles this run actually created.  The four GRANT statements do not change
`pg_roles` membership and are not modelled. -/
def restore_global_data (st : List (List Char)) (dbname : List Char) :
    List (List Char) × List (List Char) :=
  let (st1, o1) := create_role_if_not_exist st dbname "db_owner"
  let (st2, o2) := create_role_if_not_exist st1 dbname "dbo"
  let (st3, o3) := create_role_if_not_exist st2 dbname "guest"
  (st3, o1.toList ++ o2.toList ++ o3.toList)

/-- One successful `DROP ROLE`: the role disappears from `pg_roles`. -/
def drop_role (st : List (List Char)) (r : List Char) : List (List Char) :=
  st.filter (fun x => x != r)

/-- Embedding of `drop_created_roles` (restore dialog.rs lines 176-183):
`client.execute(DROP ROLE ...)?` inside the loop propagates the first
failure, so the loop stops there.  `fails` abstracts which DROP statements
fail.  Returns the final role state, the roles actually dropped, and the
first failing role, if any. -/
def drop_created_roles (fails : List Char → Bool) (st : List (List Char)) :
    List (List Char) → List (List Char) × List (List Char) × Option (List Char)
  | [] => (st, [], none)
  | r :: rs =>
    if fails r then (st, [], some r)
    else
      let (st2, ds, e) := drop_created_roles fails (drop_role st r) rs
      (st2, r :: ds, e)

/-- Process environments as association lists (first match wins). -/
def env_set (e : List (String × String)) (k v : String) : List (String × String) :=
  (k, v) :: e.filter (fun p => p.1 != k)

/-- Environment lookup. -/
def env_get (e : List (String × String)) (k : String) : Option String :=
  match e with
  | [] => none
  | (k0, v0) :: rest => if k0 = k then some v0 else env_get rest k

/-- Environment effect of the backup `run_command` (backup dialog.rs lines
97-146): line 110 executes `env::set_var("PGPASSWORD", &pcc.password)`,
mutating the parent process environment before spawning; the spawned
pg_dump inherits that mutated environment.  Returns (parent environment
after the call, environment of the spawned process). -/
def run_command_env (parent : List (String × String)) (password : String) :
    List (String × String) × List (String × String) :=
  let parent2 := env_set parent "PGPASSWORD" password
  (parent2, parent2)

/-- Environment effect of `run_pg_restore` (restore dialog.rs lines
185-216): the duct expression carries `.env("PGPASSWORD", &pcc.password)`,
so only the spawned pg_restore sees the variable; the parent environment
is untouched. -/
def run_pg_restore_env (parent : List (String × String)) (password : String) :
    List (String × String) × List (String × String) :=
  (parent, env_set parent "PGPASSWORD" password)

/-- Whether an optional field is absent or well-formed UTF-8 (so that the
lossy decode and re-encode in `replace_dbname` is lossless on it). -/
def fieldUtf8 (o : Option (List Nat)) : Prop :=
  match o with
  | none => True
  | some b => utf8Valid b = true

instance (o : Option (List Nat)) : Decidable (fieldUtf8 o) := by
  unfold fieldUtf8; cases o <;> infer_instance

/-- All six fields touched by `modify_toc_entry` are absent or valid
UTF-8. -/
def entryUtf8 (te : TocEntry) : Prop :=
  fieldUtf8 te.defn ∧ fieldUtf8 te.copy_stmt ∧ fieldUtf8 te.drop_stmt ∧
  fieldUtf8 te.namespc ∧ fieldUtf8 te.owner ∧ fieldUtf8 te.tag

instance (te : TocEntry) : Decidable (entryUtf8 te) := by
  unfold entryUtf8; infer_instance

/-- Serialization of a list of entries. -/
def encodeEntries (es : List TocEntry) : List Nat :=
  (es.map write_toc_entry).flatten

/-- Serialization of a whole TOC stream: header, entry count, entries. -/
def encodeToc (h : TocHeader) (es : List TocEntry) : List Nat :=
  encodeHeader h ++ write_int (es.length : Int) ++ encodeEntries es

/-- The value `read_int` yields from a 5-byte buffer. -/
def readInt5 (l : List Nat) : Int :=
  match l with
  | [b0, b1, b2, b3, b4] => readIntCore b0 b1 b2 b3 b4
  | _ => 0

/-- A small well-formed header used as sample data: version 1.14.0,
no compression, timestamp 2000-01-01 00:00:00 stored with pg_dump's
one-based day and month (month byte 1 here, i.e. February, to stay valid
under the parser's off-by-one reading), empty database and version
strings. -/
def sampleHeader : TocHeader :=
  { vmaj := 1, vmin := 14, vrev := 0, comp := 0,
    tsSec := 0, tsMin := 0, tsHour := 0, tsDay := 1, tsMonth := 1,
    tsYear := 100, tsIsDst := 0,
    dbname := [], version_server := [], version_pgdump := [] }

/-- A TOC entry with every optional field absent. -/
def emptyEntry : TocEntry :=
  { dump_id := 1, had_dumper := 0, table_oid := none, catalog_oid := none,
    tag := none, description := none, sectionVal := 0, defn := none,
    drop_stmt := none, copy_stmt := none, namespc := none, tablespace := none,
    tableam := none, owner := none, table_with_oids := none, deps := [],
    filename := none }

/-- A schema entry tagged `d_dbo` whose definition field holds the single
byte 0xFF, which is not valid UTF-8. -/
def badUtf8Entry : TocEntry :=
  { emptyEntry with
    tag := some (strCodes "d_dbo"),
    description := some (strCodes "SCHEMA"),
    defn := some [255] }

/-- An entry whose tag is not one of the role-declaration forms. -/
def plainTagEntry : TocEntry :=
  { emptyEntry with tag := some (strCodes "tbl") }

/-- An entry whose tag is exactly the `acme_dbo` role name. -/
def dboTagEntry : TocEntry :=
  { emptyEntry with tag := some (strCodes "acme_dbo") }

theorem le4_recompose (n : Nat) (h : n < 4294967296) :
    n % 256 + n / 256 % 256 * 256 + n / 65536 % 256 * 65536
      + n / 16777216 % 256 * 16777216 = n := by
  omega

theorem le4_lt (n : Nat) : ∀ x ∈ le4 n, x < 256 := by
  intro x hx
  simp [le4] at hx
  rcases hx with h | h | h | h <;> omega

/-- Round trip of the integer codec on any `i32` value, with arbitrary
trailing bytes. -/
theorem read_write_int (v : Int) (h : i32range v) (r : List Nat) :
    read_int (write_int v ++ r) = some (v, r) := by
  unfold i32range at h
  unfold write_int
  by_cases hv : 0 ≤ v
  · simp only [if_pos hv, le4, List.cons_append, read_int, readIntCore, toSigned32,
      negWrap32, Option.some.injEq, Prod.mk.injEq]
    refine ⟨?_, rfl⟩
    split_ifs <;> omega
  · simp only [if_neg hv, le4, List.cons_append, read_int, readIntCore, toSigned32,
      negWrap32, Option.some.injEq, Prod.mk.injEq]
    refine ⟨?_, rfl⟩
    split_ifs <;> omega

/-- Every byte emitted by `write_int` is below 256. -/
theorem write_int_bytes_lt (v : Int) : ∀ x ∈ write_int v, x < 256 := by
  intro x hx
  unfold write_int at hx
  by_cases hv : 0 ≤ v <;> simp [hv] at hx <;>
    rcases hx with h | h <;>
    first
      | omega
      | exact le4_lt _ x h

/-- The integer encoding is always exactly five bytes long. -/
theorem write_int_length (v : Int) : (write_int v).length = 5 := by
  unfold write_int le4
  by_cases hv : 0 ≤ v <;> simp [hv]


/-- The `usize` to `i32` cast is the identity below `2^31`. -/
theorem i32ofNat_small (n : Nat) (h : n < 2147483648) : i32ofNat n = (n : Int) := by
  unfold i32ofNat toSigned32
  have : n % 4294967296 = n := by omega
  rw [this]
  simp [h]

/-- Round trip of the optional-string codec: any value whose length fits an
`i32` deserializes back to itself. -/
theorem read_write_string_opt (o : Option (List Nat))
    (h : ∀ b, o = some b → b.length < 2147483648) (r : List Nat) :
    read_string_opt (write_string_opt o ++ r) = some (o, r) := by
  match o with
  | none =>
    show read_string_opt (write_int (-1) ++ r) = some (none, r)
    unfold read_string_opt
    rw [read_write_int (-1) (by constructor <;> norm_num) r]
    norm_num
  | some b =>
    have hlen := h b rfl
    show read_string_opt ((write_int (i32ofNat b.length) ++ b) ++ r) = some (some b, r)
    rw [List.append_assoc, i32ofNat_small b.length hlen]
    unfold read_string_opt
    rw [read_write_int (b.length : Int) (by constructor <;> omega) (b ++ r)]
    have h0 : ¬ ((b.length : Int) < 0) := by omega
    simp only [h0, if_false]
    by_cases hz : b = []
    · subst hz; norm_num
    · have hz' : ¬ ((b.length : Int) = 0) := by
        simp [List.length_eq_zero, hz]
      simp only [hz', if_false, Int.toNat_natCast]
      unfold readBytes
      have hle : b.length ≤ (b ++ r).length := by simp
      simp [hle, List.take_left, List.drop_left]

/-- Re-encoding a one-byte (ASCII) decode. -/
theorem utf8EncodeChar_one (b0 : Nat) (t : List Nat) (h : b0 < 128) :
    utf8EncodeChar b0 = List.take 1 (b0 :: t) ∧ 1 ≤ 1 ∧ 1 ≤ (b0 :: t).length := by
  refine ⟨?_, le_rfl, by simp only [List.length_cons]; omega⟩
  have ht : List.take 1 (b0 :: t) = [b0] := rfl
  rw [ht]
  unfold utf8EncodeChar
  rw [if_pos h]

/-- Re-encoding a two-byte decode reproduces the two bytes. -/
theorem utf8EncodeChar_two (b0 b1 : Nat) (t : List Nat)
    (h1 : 194 ≤ b0) (h2 : b0 ≤ 223) (h3 : 128 ≤ b1) (h4 : b1 ≤ 191) :
    utf8EncodeChar ((b0 - 192) * 64 + (b1 - 128)) = List.take 2 (b0 :: b1 :: t) ∧
      1 ≤ 2 ∧ 2 ≤ (b0 :: b1 :: t).length := by
  refine ⟨?_, by omega, by simp only [List.length_cons]; omega⟩
  have ht : List.take 2 (b0 :: b1 :: t) = [b0, b1] := rfl
  rw [ht]
  unfold utf8EncodeChar
  have hA : ¬ ((b0 - 192) * 64 + (b1 - 128) < 128) := by omega
  have hB : (b0 - 192) * 64 + (b1 - 128) < 2048 := by omega
  rw [if_neg hA, if_pos hB]
  simp only [List.cons.injEq, and_true]
  omega

/-- Re-encoding a three-byte decode reproduces the three bytes. -/
theorem utf8EncodeChar_three (b0 b1 b2 : Nat) (t : List Nat)
    (h1 : 224 ≤ b0) (h2 : b0 ≤ 239) (h3 : 128 ≤ b1) (h4 : b1 ≤ 191)
    (h5 : 128 ≤ b2) (h6 : b2 ≤ 191) (h7 : 225 ≤ b0 ∨ 160 ≤ b1) :
    utf8EncodeChar ((b0 - 224) * 4096 + (b1 - 128) * 64 + (b2 - 128)) =
      List.take 3 (b0 :: b1 :: b2 :: t) ∧ 1 ≤ 3 ∧ 3 ≤ (b0 :: b1 :: b2 :: t).length := by
  refine ⟨?_, by omega, by simp only [List.length_cons]; omega⟩
  have ht : List.take 3 (b0 :: b1 :: b2 :: t) = [b0, b1, b2] := rfl
  rw [ht]
  unfold utf8EncodeChar
  have hA : ¬ ((b0 - 224) * 4096 + (b1 - 128) * 64 + (b2 - 128) < 128) := by omega
  have hB : ¬ ((b0 - 224) * 4096 + (b1 - 128) * 64 + (b2 - 128) < 2048) := by omega
  have hC : (b0 - 224) * 4096 + (b1 - 128) * 64 + (b2 - 128) < 65536 := by omega
  rw [if_neg hA, if_neg hB, if_pos hC]
  simp only [List.cons.injEq, and_true]
  omega

/-- Re-encoding a four-byte decode reproduces the four bytes. -/
theorem utf8EncodeChar_four (b0 b1 b2 b3 : Nat) (t : List Nat)
    (h1 : 240 ≤ b0) (h2 : b0 ≤ 244) (h3 : 128 ≤ b1) (h4 : b1 ≤ 191)
    (h5 : 128 ≤ b2) (h6 : b2 ≤ 191) (h7 : 128 ≤ b3) (h8 : b3 ≤ 191)
    (h9 : 241 ≤ b0 ∨ 144 ≤ b1) :
    utf8EncodeChar ((b0 - 240) * 262144 + (b1 - 128) * 4096 + (b2 - 128) * 64 + (b3 - 128)) =
      List.take 4 (b0 :: b1 :: b2 :: b3 :: t) ∧
      1 ≤ 4 ∧ 4 ≤ (b0 :: b1 :: b2 :: b3 :: t).length := by
  refine ⟨?_, by omega, by simp only [List.length_cons]; omega⟩
  have ht : List.take 4 (b0 :: b1 :: b2 :: b3 :: t) = [b0, b1, b2, b3] := rfl
  rw [ht]
  unfold utf8EncodeChar
  have hA : ¬ ((b0 - 240) * 262144 + (b1 - 128) * 4096 + (b2 - 128) * 64 + (b3 - 128) < 128) := by
    omega
  have hB : ¬ ((b0 - 240) * 262144 + (b1 - 128) * 4096 + (b2 - 128) * 64 + (b3 - 128) < 2048) := by
    omega
  have hC : ¬ ((b0 - 240) * 262144 + (b1 - 128) * 4096 + (b2 - 128) * 64 + (b3 - 128) < 65536) := by
    omega
  rw [if_neg hA, if_neg hB, if_neg hC]
  simp only [List.cons.injEq, and_true]
  omega

/-- A well-formed UTF-8 decode step reproduces exactly the bytes it
consumed, and consumes between one and `l.length` bytes. -/
theorem utf8DecodeStep_ok (l : List Nat) (c k : Nat)
    (h : utf8DecodeStep l = (c, k, true)) :
    utf8EncodeChar c = l.take k ∧ 1 ≤ k ∧ k ≤ l.length := by
  match l with
  | [] => simp [utf8DecodeStep] at h
  | b0 :: rest =>
    unfold utf8DecodeStep at h
    repeat' split at h
    all_goals simp only [Prod.mk.injEq, Bool.false_eq_true, eq_self_iff_true,
      and_true, and_false] at h
    all_goals obtain ⟨hc, hk⟩ := h
    all_goals subst hc hk
    all_goals simp_all only [isCont, Bool.and_eq_true, Bool.or_eq_true,
      decide_eq_true_eq, beq_iff_eq, not_lt, List.cons.injEq]
    · exact utf8EncodeChar_one _ _ (by omega)
    · exact utf8EncodeChar_two _ _ _ (by omega) (by omega) (by omega) (by omega)
    · exact utf8EncodeChar_three _ _ _ _ (by omega) (by omega) (by omega) (by omega)
        (by omega) (by omega) (by omega)
    · exact utf8EncodeChar_four _ _ _ _ _ (by omega) (by omega) (by omega) (by omega)
        (by omega) (by omega) (by omega) (by omega) (by omega)

/-- Encoding distributes over cons. -/
theorem utf8Encode_cons (c : Nat) (s : List Nat) :
    utf8Encode (c :: s) = utf8EncodeChar c ++ utf8Encode s := by
  simp [utf8Encode]

/-- Fuelled version: on well-formed UTF-8 input, re-encoding the lossy
decoding reproduces the input bytes. -/
theorem utf8Encode_lossyAux (fuel : Nat) : ∀ l : List Nat, l.length ≤ fuel →
    utf8ValidAux fuel l = true → utf8Encode (utf8LossyAux fuel l) = l := by
  induction fuel with
  | zero =>
    intro l hlen _
    have : l = [] := List.eq_nil_of_length_eq_zero (by omega)
    subst this
    simp [utf8LossyAux, utf8Encode]
  | succ n ih =>
    intro l hlen hv
    match l with
    | [] => simp [utf8LossyAux, utf8Encode]
    | b :: rest =>
      rcases hstep : utf8DecodeStep (b :: rest) with ⟨c, kok⟩
      rcases kok with ⟨k, ok⟩
      rw [utf8ValidAux, hstep] at hv
      simp only [Bool.and_eq_true] at hv
      obtain ⟨hok, hv2⟩ := hv
      subst hok
      obtain ⟨henc, hk1, hkle⟩ := utf8DecodeStep_ok (b :: rest) c k hstep
      rw [utf8LossyAux, hstep, utf8Encode_cons, henc,
        ih ((b :: rest).drop k) (by simp only [List.length_drop, List.length_cons] at hlen hkle ⊢; omega) hv2,
        List.take_append_drop]

/-- On well-formed UTF-8 bytes, `String::from_utf8_lossy` followed by
`String::into_bytes` is the identity. -/
theorem utf8Encode_lossy (l : List Nat) (h : utf8Valid l = true) :
    utf8Encode (utf8Lossy l) = l :=
  utf8Encode_lossyAux l.length l le_rfl h

/-- A successful Boolean prefix test really is a list decomposition. -/
theorem listStarts_append : ∀ n s : List Nat, listStarts n s = true →
    n ++ s.drop n.length = s := by
  intro n
  induction n with
  | nil => intro s _; simp
  | cons a ns ih =>
    intro s h
    match s with
    | [] => simp [listStarts] at h
    | b :: ss =>
      simp only [listStarts, Bool.and_eq_true, beq_iff_eq] at h
      obtain ⟨hab, hns⟩ := h
      subst hab
      simpa using ih ss hns

/-- Fuelled version of replace-by-itself being the identity. -/
theorem replaceAux_self (fuel : Nat) : ∀ s n : List Nat, s.length ≤ fuel →
    replaceAux fuel s n n = s := by
  induction fuel with
  | zero => intro s n _; rfl
  | succ f ih =>
    intro s n hlen
    match s with
    | [] => rfl
    | a :: rest =>
      rw [replaceAux]
      by_cases hc : (!n.isEmpty && listStarts n (a :: rest)) = true
      · rw [if_pos hc]
        simp only [Bool.and_eq_true, Bool.not_eq_true', List.isEmpty_eq_false] at hc
        obtain ⟨hne, hst⟩ := hc
        have hlen1 : 1 ≤ n.length := by
          cases n with
          | nil => simp at hne
          | cons x xs => simp
        rw [ih ((a :: rest).drop n.length) n (by simp only [List.length_drop, List.length_cons] at hlen ⊢; omega)]
        exact listStarts_append n (a :: rest) hst
      · rw [if_neg hc]
        rw [ih rest n (by simp at hlen; omega)]

/-- Replacing a pattern by itself leaves the input unchanged (exercised by
the rewrite pass when the new database name equals the original one). -/
theorem replace_self (s n : List Nat) : replaceL s n n = s :=
  replaceAux_self s.length s n le_rfl


/-- Well-formedness of an optional field bounds the length of its value. -/
theorem wfOpt_length (o : Option (List Nat)) (h : wfOpt o) :
    ∀ b, o = some b → b.length < 2147483648 := by
  intro b hb
  subst hb
  exact h.1

/-- Replacing with the original name equal to the new name leaves a field
unchanged, provided the field is absent or valid UTF-8 (`replace_dbname`
decodes the field with lossy UTF-8 and re-encodes it). -/
theorem replace_dbname_self (te : TocEntry) (opt : Option (List Nat))
    (d : List Nat) (can : Bool) (h : fieldUtf8 opt) :
    replace_dbname te opt d d can = opt := by
  match opt with
  | none => rfl
  | some b =>
    unfold fieldUtf8 at h
    show replace_dbname te (some b) d d can = some b
    unfold replace_dbname
    simp only [replace_self]
    rw [utf8Encode_lossy b h]

/-- Rewriting an entry with the new name equal to the original name is the
identity when the six rewritten fields are absent or valid UTF-8. -/
theorem modify_toc_entry_self (te : TocEntry) (d : List Nat) (h : entryUtf8 te) :
    modify_toc_entry te d d = te := by
  obtain ⟨h1, h2, h3, h4, h5, h6⟩ := h
  by_cases hd : d = []
  · unfold modify_toc_entry
    rw [if_pos hd]
  · unfold modify_toc_entry
    rw [if_neg hd]
    simp only [replace_dbname_self _ _ _ _ h1, replace_dbname_self _ _ _ _ h2,
      replace_dbname_self _ _ _ _ h3, replace_dbname_self _ _ _ _ h4,
      replace_dbname_self _ _ _ _ h5, replace_dbname_self _ _ _ _ h6]

/-- Rewriting with an unknown (empty) original name is the identity. -/
theorem modify_toc_entry_nil (te : TocEntry) (dbname : List Nat) :
    modify_toc_entry te [] dbname = te := by
  unfold modify_toc_entry
  rw [if_pos rfl]


/-- The serialized form of a present string is at least five bytes. -/
theorem write_string_opt_some_length (d : List Nat) :
    5 ≤ (write_string_opt (some d)).length := by
  unfold write_string_opt
  rw [List.length_append, write_int_length]
  omega

/-- The serialized dependency list is at least as long as the number of
dependencies. -/
theorem encDeps_length_ge (deps : List (List Nat)) :
    deps.length ≤ ((deps.map (fun d => write_string_opt (some d))).flatten).length := by
  induction deps with
  | nil => simp
  | cons d ds ih =>
    simp only [List.map_cons, List.flatten_cons, List.length_append, List.length_cons]
    have := write_string_opt_some_length d
    omega

/-- Reading back a serialized dependency list consumes it exactly,
stopping at the terminator, for any sufficient fuel. -/
theorem readDepsAux_roundtrip (deps : List (List Nat)) :
    ∀ fuel rest, deps.length + 1 ≤ fuel →
    (∀ d ∈ deps, d.length < 2147483648) →
    readDepsAux fuel
      ((deps.map (fun d => write_string_opt (some d))).flatten ++
        (write_string_opt none ++ rest)) = some (deps, rest) := by
  induction deps with
  | nil =>
    intro fuel rest hfuel _
    match fuel with
    | f + 1 =>
      simp only [List.map_nil, List.flatten_nil, List.nil_append]
      unfold readDepsAux
      rw [read_write_string_opt none (by intro b hb; cases hb) rest]
  | cons d ds ih =>
    intro fuel rest hfuel hlen
    match fuel with
    | f + 1 =>
      simp only [List.map_cons, List.flatten_cons, List.append_assoc]
      unfold readDepsAux
      rw [read_write_string_opt (some d)
        (by intro b hb; cases hb; exact hlen d (by simp))
        ((ds.map (fun d => write_string_opt (some d))).flatten ++ (write_string_opt none ++ rest))]
      dsimp only
      rw [ih f rest (by simp at hfuel; omega) (fun x hx => hlen x (by simp [hx]))]

/-- Specialized form at the fuel `read_toc_entry` uses. -/
theorem readDepsAux_entry (deps : List (List Nat)) (tail : List Nat)
    (h : ∀ d ∈ deps, d.length < 2147483648) :
    readDepsAux
      (((deps.map (fun d => write_string_opt (some d))).flatten ++
        (write_string_opt none ++ tail)).length + 1)
      ((deps.map (fun d => write_string_opt (some d))).flatten ++
        (write_string_opt none ++ tail)) = some (deps, tail) := by
  apply readDepsAux_roundtrip deps _ tail _ h
  have := encDeps_length_ge deps
  simp only [List.length_append]
  omega

/-- Round trip of the entry codec: any well-formed entry deserializes back
to itself, with arbitrary trailing bytes. -/
theorem read_write_toc_entry (te : TocEntry) (h : wfEntry te) (rest : List Nat) :
    read_toc_entry (write_toc_entry te ++ rest) = some (te, rest) := by
  obtain ⟨hdump, hhad, hsec, htoid, hcoid, htag, hdesc, hdefn, hdrop, hcopy,
    hns, hts, htam, hown, htwo, hdeps, hfile⟩ := h
  unfold write_toc_entry read_toc_entry
  simp only [List.append_assoc]
  simp only [read_write_int te.dump_id hdump,
    read_write_int te.had_dumper hhad,
    read_write_string_opt te.table_oid (wfOpt_length _ htoid),
    read_write_string_opt te.catalog_oid (wfOpt_length _ hcoid),
    read_write_string_opt te.tag (wfOpt_length _ htag),
    read_write_string_opt te.description (wfOpt_length _ hdesc),
    read_write_int te.sectionVal hsec,
    read_write_string_opt te.defn (wfOpt_length _ hdefn),
    read_write_string_opt te.drop_stmt (wfOpt_length _ hdrop),
    read_write_string_opt te.copy_stmt (wfOpt_length _ hcopy),
    read_write_string_opt te.namespc (wfOpt_length _ hns),
    read_write_string_opt te.tablespace (wfOpt_length _ hts),
    read_write_string_opt te.tableam (wfOpt_length _ htam),
    read_write_string_opt te.owner (wfOpt_length _ hown),
    read_write_string_opt te.table_with_oids (wfOpt_length _ htwo),
    readDepsAux_entry te.deps (write_string_opt te.filename ++ rest)
      (fun d hd => (hdeps d hd).1),
    read_write_string_opt te.filename (wfOpt_length _ hfile)]


/-- The magic check passes on the canonical magic and copies it. -/
theorem copy_magic_id (r : List Nat) :
    copy_magic (80 :: 71 :: 68 :: 77 :: 80 :: r) = some (pgdmpMagic, r) := by
  unfold copy_magic readBytes
  have h5 : 5 ≤ (80 :: 71 :: 68 :: 77 :: 80 :: r).length := by
    simp only [List.length_cons]; omega
  rw [if_pos h5]
  rfl

/-- The version check passes, and copies the bytes, whenever the major
byte is 1 or the minor byte is 14 (the source condition errors only when
both differ). -/
theorem copy_version_ok (v0 v1 v2 : Nat) (h : v0 = 1 ∨ v1 = 14) (r : List Nat) :
    copy_version (v0 :: v1 :: v2 :: r) = some ([v0, v1, v2], r) := by
  unfold copy_version readBytes
  have h3 : 3 ≤ (v0 :: v1 :: v2 :: r).length := by
    simp only [List.length_cons]; omega
  rw [if_pos h3]
  have ht : List.take 3 (v0 :: v1 :: v2 :: r) = [v0, v1, v2] := rfl
  have hd : List.drop 3 (v0 :: v1 :: v2 :: r) = r := rfl
  rw [ht, hd]
  dsimp only
  rw [if_neg]
  intro hcon
  rcases h with h | h
  · exact hcon.1 h
  · exact hcon.2 h

/-- The flag checks pass on the canonical flag bytes. -/
theorem copy_flags_id (r : List Nat) :
    copy_flags (4 :: 8 :: 3 :: r) = some ([4, 8, 3], r) := by
  unfold copy_flags readBytes
  have h3 : 3 ≤ (4 :: 8 :: 3 :: r).length := by
    simp only [List.length_cons]; omega
  rw [if_pos h3]
  rfl

/-- Copying a canonically encoded integer reproduces its bytes. -/
theorem copy_int_id (v : Int) (h : i32range v) (r : List Nat) :
    copy_int (write_int v ++ r) = some (write_int v, v, r) := by
  unfold copy_int
  rw [read_write_int v h r]

/-- Copying a canonically encoded, chrono-valid timestamp reproduces its
bytes. -/
theorem copy_timestamp_id (sec minute hour day month year dst : Int)
    (hsec : i32range sec) (hmin : i32range minute) (hhour : i32range hour)
    (hday : i32range day) (hmonth : i32range month) (hyear : i32range year)
    (hdst : i32range dst)
    (hvd : validDate (year + 1900) month day = true)
    (hvt : validTime hour minute sec = true)
    (r : List Nat) :
    copy_timestamp (write_int sec ++ (write_int minute ++ (write_int hour ++
        (write_int day ++ (write_int month ++ (write_int year ++
        (write_int dst ++ r))))))) =
      some (write_int sec ++ write_int minute ++ write_int hour ++ write_int day ++
        write_int month ++ write_int year ++ write_int dst, r) := by
  unfold copy_timestamp
  simp only [copy_int_id sec hsec, copy_int_id minute hmin, copy_int_id hour hhour,
    copy_int_id day hday, copy_int_id month hmonth, copy_int_id year hyear,
    copy_int_id dst hdst]
  rw [if_pos (by rw [hvd, hvt]; rfl)]

/-- Copying a canonically encoded present string reproduces its bytes. -/
theorem copy_string_id (b : List Nat) (h : b.length < 2147483648) (r : List Nat) :
    copy_string (write_string_opt (some b) ++ r) =
      some (write_string_opt (some b), r) := by
  unfold copy_string copy_string_opt
  rw [read_write_string_opt (some b) (by intro x hx; cases hx; exact h) r]

/-- Copying a canonically encoded well-formed header reproduces its bytes
exactly. -/
theorem copy_header_id (h : TocHeader) (hw : wfHeader h) (r : List Nat) :
    copy_header (encodeHeader h ++ r) = some (encodeHeader h, r) := by
  obtain ⟨hver, _, _, _, hcomp, hsec, hmin, hhour, hday, hmonth, hyear, hdst,
    hvd, hvt, hdb, hsv, hpv⟩ := hw
  unfold copy_header encodeHeader pgdmpMagic
  simp only [List.append_assoc, List.cons_append, List.nil_append]
  simp only [copy_magic_id, copy_version_ok h.vmaj h.vmin h.vrev hver, copy_flags_id,
    copy_int_id h.comp hcomp,
    copy_timestamp_id h.tsSec h.tsMin h.tsHour h.tsDay h.tsMonth h.tsYear h.tsIsDst
      hsec hmin hhour hday hmonth hyear hdst hvd hvt,
    copy_string_id h.dbname hdb.1,
    copy_string_id h.version_server hsv.1,
    copy_string_id h.version_pgdump hpv.1]
  simp only [pgdmpMagic, List.append_assoc, List.cons_append, List.nil_append]


/-- Serialization of a cons of entries. -/
theorem encodeEntries_cons (te : TocEntry) (tes : List TocEntry) :
    encodeEntries (te :: tes) = write_toc_entry te ++ encodeEntries tes := by
  simp [encodeEntries]

/-- One unfolding of the entry loop over a canonically serialized entry. -/
theorem entriesLoop_cons (dbname : List Nat) (te : TocEntry) (tes : List TocEntry)
    (map : List (List Nat × List Nat)) (orig : List Nat) (l : List Nat)
    (hwf : wfEntry te) :
    entriesLoop dbname (tes.length + 1) (write_toc_entry te ++ l) orig map =
      match entriesLoop dbname tes.length l (entryOrigUpdate te orig)
          (entryMapUpdate te map) with
      | none => none
      | some (out, o3, m3, r3) =>
          some (write_toc_entry (modify_toc_entry te (entryOrigUpdate te orig) dbname)
            ++ out, o3, m3, r3) := by
  conv_lhs => rw [entriesLoop]
  rw [read_write_toc_entry te hwf l]

/-- The entry loop over a stream with no matching schema entry: the
original name stays unknown, every entry is rewritten as a no-op, and the
output bytes equal the input bytes. -/
theorem entriesLoop_nomatch (dbname : List Nat) :
    ∀ es : List TocEntry, ∀ map rest,
    (∀ te ∈ es, wfEntry te) → (∀ te ∈ es, ¬ isMatch te) →
    entriesLoop dbname es.length (encodeEntries es ++ rest) [] map =
      some (encodeEntries es, [], scanMap es map, rest) := by
  intro es
  induction es with
  | nil =>
    intro map rest _ _
    simp [encodeEntries, entriesLoop, scanMap]
  | cons te tes ih =>
    intro map rest hwf hnm
    rw [show (te :: tes).length = tes.length + 1 from rfl, encodeEntries_cons,
      List.append_assoc,
      entriesLoop_cons dbname te tes map [] _ (hwf te (by simp))]
    have ho : entryOrigUpdate te [] = [] := by
      unfold entryOrigUpdate
      rw [if_neg (hnm te (by simp))]
    rw [ho]
    rw [ih (entryMapUpdate te map) rest (fun x hx => hwf x (by simp [hx]))
      (fun x hx => hnm x (by simp [hx]))]
    rw [modify_toc_entry_nil]
    simp [encodeEntries_cons, scanMap]

/-- The entry loop when every matching schema entry names the same
original as the requested new name and every entry's rewritten fields are
UTF-8 clean: every rewrite is the identity and the output bytes equal the
input bytes. -/
theorem entriesLoop_samename (dbname : List Nat) :
    ∀ es : List TocEntry, ∀ orig map rest,
    (∀ te ∈ es, wfEntry te) →
    (∀ te ∈ es, isMatch te → computedOrig te = dbname) →
    (∀ te ∈ es, entryUtf8 te) →
    (orig = [] ∨ orig = dbname) →
    entriesLoop dbname es.length (encodeEntries es ++ rest) orig map =
      some (encodeEntries es, scanOrig es orig, scanMap es map, rest) := by
  intro es
  induction es with
  | nil =>
    intro orig map rest _ _ _ _
    simp [encodeEntries, entriesLoop, scanOrig, scanMap]
  | cons te tes ih =>
    intro orig map rest hwf hm hu hinv
    rw [show (te :: tes).length = tes.length + 1 from rfl, encodeEntries_cons,
      List.append_assoc,
      entriesLoop_cons dbname te tes map orig _ (hwf te (by simp))]
    have hinv2 : entryOrigUpdate te orig = [] ∨ entryOrigUpdate te orig = dbname := by
      unfold entryOrigUpdate
      by_cases hmt : isMatch te
      · rw [if_pos hmt]
        exact Or.inr (hm te (by simp) hmt)
      · rw [if_neg hmt]
        exact hinv
    have hmodid : modify_toc_entry te (entryOrigUpdate te orig) dbname = te := by
      rcases hinv2 with h0 | h0
      · rw [h0, modify_toc_entry_nil]
      · rw [h0]
        exact modify_toc_entry_self te dbname (hu te (by simp))
    rw [ih (entryOrigUpdate te orig) (entryMapUpdate te map) rest
      (fun x hx => hwf x (by simp [hx])) (fun x hx => hm x (by simp [hx]))
      (fun x hx => hu x (by simp [hx])) hinv2]
    rw [hmodid]
    simp [encodeEntries_cons, scanOrig, scanMap]

/-- The streaming pass on a canonical stream, given the behaviour of the
entry loop: header and count are copied verbatim. -/
theorem tocPass_eq (h : TocHeader) (es : List TocEntry) (dbname : List Nat)
    (hwh : wfHeader h) (hcnt : es.length < 2147483648)
    (o : List Nat) (m : List (List Nat × List Nat))
    (hloop : entriesLoop dbname es.length (encodeEntries es) [] [] =
      some (encodeEntries es, o, m, [])) :
    tocPass (encodeToc h es) dbname = some (encodeToc h es, o, m) := by
  unfold tocPass encodeToc
  simp only [List.append_assoc]
  rw [copy_header_id h hwh]
  dsimp only
  rw [copy_int_id (es.length : Int) (by constructor <;> omega) (encodeEntries es)]
  dsimp only
  rw [Int.toNat_natCast]
  rw [hloop]

/-- Reading an integer from an arbitrary 5-byte buffer. -/
theorem read_int_of5 (l : List Nat) (h : l.length = 5) (r : List Nat) :
    read_int (l ++ r) = some (readInt5 l, r) := by
  match l with
  | [b0, b1, b2, b3, b4] => rfl
  | [] => simp at h
  | [a] => simp at h
  | [a, b] => simp at h
  | [a, b, c] => simp at h
  | [a, b, c, d] => simp at h
  | a :: b :: c :: d :: e :: f :: t =>
    simp only [List.length_cons] at h
    omega


/-- Claim C2 counterexample: with `canQualify` true and an entry tag
(`tbl`) that is not one of the exempted role forms, the source appends a
dot to the needles, so the bare tokens in `GRANT acme_guest TO acme_dbo`
are NOT replaced: the field comes back unchanged rather than as
`GRANT bolt_guest TO bolt_dbo`. -/
theorem claim_c2_counterexample :
    replace_dbname plainTagEntry (some (strCodes "GRANT acme_guest TO acme_dbo"))
      (strCodes "acme") (strCodes "bolt") true
      = some (strCodes "GRANT acme_guest TO acme_dbo") ∧
    replace_dbname plainTagEntry (some (strCodes "GRANT acme_guest TO acme_dbo"))
      (strCodes "acme") (strCodes "bolt") true
      ≠ some (strCodes "GRANT bolt_guest TO bolt_dbo") := by decide

/-- Claim C2 (amended): when `canQualify` is true, bare tokens are
replaced only when the entry's own tag is one of the exempted role forms
(here `acme_dbo`); for any other tag only the trailing-dot qualified
occurrences (`acme_dbo.`, `acme_guest.`, ...) are replaced, and bare
occurrences are left unchanged.  In particular `GRANT acme_guest TO
acme_dbo` becomes `GRANT bolt_guest TO bolt_dbo` only on the exempted-tag
entry, while qualified references such as `acme_dbo.v1` are rewritten on
ordinary entries. -/
theorem claim_c2 :
    replace_dbname dboTagEntry (some (strCodes "GRANT acme_guest TO acme_dbo"))
      (strCodes "acme") (strCodes "bolt") true
      = some (strCodes "GRANT bolt_guest TO bolt_dbo") ∧
    replace_dbname plainTagEntry
      (some (strCodes "CREATE VIEW acme_dbo.v1 AS SELECT acme_guest.x"))
      (strCodes "acme") (strCodes "bolt") true
      = some (strCodes "CREATE VIEW bolt_dbo.v1 AS SELECT bolt_guest.x") ∧
    replace_dbname plainTagEntry (some (strCodes "GRANT acme_guest TO acme_dbo"))
      (strCodes "acme") (strCodes "bolt") true
      = some (strCodes "GRANT acme_guest TO acme_dbo") := by decide

/-- Claim C3: the source's version check (`1 != buf[0] && 14 != buf[1]`)
errors only when BOTH bytes mismatch, so a header with major byte 2 and
minor byte 14, or major 1 and minor 99, passes the check, contrary to the
specified behaviour that any mismatch is a hard parse failure; only a
double mismatch such as (2, 13) is rejected. -/
theorem claim_c3_version_check :
    copy_version [2, 14, 0] = some ([2, 14, 0], []) ∧
    copy_version [1, 99, 0] = some ([1, 99, 0], []) ∧
    copy_version [2, 13, 0] = none := by decide

/-- Claim C4: for every `i32` value, `write_int` produces exactly five
bytes and `read_int` on them returns the original value (including
`i32::MIN`, where the source's wrapping negation round-trips). -/
theorem claim_c4 (v : Int) (h : i32range v) :
    (write_int v).length = 5 ∧ read_int (write_int v) = some (v, []) :=
  ⟨write_int_length v, by
    have hrt := read_write_int v h []
    rwa [List.append_nil] at hrt⟩

/-- Claim C4 witness at `i32::MIN`, `i32::MAX` and 0. -/
theorem claim_c4_witness :
    (i32range (-2147483648) ∧ (write_int (-2147483648)).length = 5 ∧
      read_int (write_int (-2147483648)) = some (-2147483648, [])) ∧
    (i32range 2147483647 ∧ (write_int 2147483647).length = 5 ∧
      read_int (write_int 2147483647) = some (2147483647, [])) ∧
    (i32range 0 ∧ (write_int 0).length = 5 ∧
      read_int (write_int 0) = some (0, [])) :=
  ⟨⟨by decide, claim_c4 (-2147483648) (by decide)⟩,
   ⟨by decide, claim_c4 2147483647 (by decide)⟩,
   ⟨by decide, claim_c4 0 (by decide)⟩⟩

/-- Claim C5: a present-but-empty optional string and an absent optional
string serialize to different byte sequences (length 0 versus length -1),
and each deserializes back to its original distinct form. -/
theorem claim_c5 :
    write_string_opt (some []) ≠ write_string_opt none ∧
    read_string_opt (write_string_opt (some [])) = some (some [], []) ∧
    read_string_opt (write_string_opt none) = some (none, []) := by decide

/-- Claim C9: the backup pipeline's `run_command` sets PGPASSWORD in the
parent process environment via `env::set_var` before spawning pg_dump, so
the parent environment is NOT left unchanged by a backup run; the restore
pipeline's `run_pg_restore` does inject the password only into the
spawned process environment. -/
theorem claim_c9_env :
    (run_command_env [] "secret").1 = [("PGPASSWORD", "secret")] ∧
    (run_command_env [] "secret").1 ≠ [] ∧
    env_get (run_command_env [] "secret").2 "PGPASSWORD" = some "secret" ∧
    (run_pg_restore_env [] "secret").1 = [] ∧
    (run_pg_restore_env [] "secret").2 = [("PGPASSWORD", "secret")] := by
  refine ⟨rfl, ?_, rfl, rfl, rfl⟩
  intro hcon
  cases hcon


/-- Copying an integer from an arbitrary 5-byte buffer. -/
theorem copy_int_of5 (l : List Nat) (h : l.length = 5) (r : List Nat) :
    copy_int (l ++ r) = some (write_int (readInt5 l), readInt5 l, r) := by
  unfold copy_int
  rw [read_int_of5 l h r]

/-- The timestamp copy fails whenever the seven stored integers do not
form a chrono-valid date and time, with the stored month value taken
directly as the calendar month. -/
theorem copy_timestamp_invalid (s mi hr d mo y ds : List Nat) (r : List Nat)
    (hs : s.length = 5) (hmi : mi.length = 5) (hhr : hr.length = 5)
    (hd : d.length = 5) (hmo : mo.length = 5) (hy : y.length = 5)
    (hds : ds.length = 5)
    (hinv : ¬ (validDate (readInt5 y + 1900) (readInt5 mo) (readInt5 d) = true ∧
               validTime (readInt5 hr) (readInt5 mi) (readInt5 s) = true)) :
    copy_timestamp (s ++ (mi ++ (hr ++ (d ++ (mo ++ (y ++ (ds ++ r))))))) = none := by
  unfold copy_timestamp
  rw [copy_int_of5 s hs]
  dsimp only
  rw [copy_int_of5 mi hmi]
  dsimp only
  rw [copy_int_of5 hr hhr]
  dsimp only
  rw [copy_int_of5 d hd]
  dsimp only
  rw [copy_int_of5 mo hmo]
  dsimp only
  rw [copy_int_of5 y hy]
  dsimp only
  rw [copy_int_of5 ds hds]
  dsimp only
  rw [if_neg]
  intro hcon
  rw [Bool.and_eq_true] at hcon
  exact hinv ⟨hcon.1, hcon.2⟩

/-- Claim C10: header parsing validates the creation timestamp: for every
input whose magic, version and flags pass the checks, `copy_header` still
fails whenever the seven timestamp integers, with the stored month-1
value taken directly as the calendar month, do not form a valid date and
time — in particular a dump created in January (stored month byte 0) is
rejected. -/
theorem claim_c10 (v0 v1 v2 : Nat) (c s mi hr d mo y ds rest : List Nat)
    (hver : v0 = 1 ∨ v1 = 14)
    (hc : c.length = 5) (hs : s.length = 5) (hmi : mi.length = 5)
    (hhr : hr.length = 5) (hd : d.length = 5) (hmo : mo.length = 5)
    (hy : y.length = 5) (hds : ds.length = 5)
    (hinv : ¬ (validDate (readInt5 y + 1900) (readInt5 mo) (readInt5 d) = true ∧
               validTime (readInt5 hr) (readInt5 mi) (readInt5 s) = true)) :
    copy_header (80 :: 71 :: 68 :: 77 :: 80 :: v0 :: v1 :: v2 :: 4 :: 8 :: 3 ::
      (c ++ (s ++ (mi ++ (hr ++ (d ++ (mo ++ (y ++ (ds ++ rest))))))))) = none := by
  unfold copy_header
  rw [copy_magic_id]
  dsimp only
  rw [copy_version_ok v0 v1 v2 hver]
  dsimp only
  rw [copy_flags_id]
  dsimp only
  rw [copy_int_of5 c hc]
  dsimp only
  rw [copy_timestamp_invalid s mi hr d mo y ds rest hs hmi hhr hd hmo hy hds hinv]

/-- Claim C10 witness: a header with valid magic, version 1.14, valid
flags, and stored month byte 0 (a January dump) is rejected. -/
theorem claim_c10_witness :
    ((1 = 1 ∨ 14 = 14) ∧ (write_int 0).length = 5 ∧ (write_int 1).length = 5 ∧
      (write_int 100).length = 5 ∧
      ¬ (validDate (readInt5 (write_int 100) + 1900) (readInt5 (write_int 0))
            (readInt5 (write_int 1)) = true ∧
         validTime (readInt5 (write_int 0)) (readInt5 (write_int 0))
            (readInt5 (write_int 0)) = true)) ∧
    copy_header (80 :: 71 :: 68 :: 77 :: 80 :: 1 :: 14 :: 0 :: 4 :: 8 :: 3 ::
      (write_int 0 ++ (write_int 0 ++ (write_int 0 ++ (write_int 0 ++
        (write_int 1 ++ (write_int 0 ++ (write_int 100 ++
        (write_int 0 ++ []))))))))) = none :=
  ⟨⟨Or.inl rfl, by decide, by decide, by decide, by decide⟩,
   claim_c10 1 14 0 (write_int 0) (write_int 0) (write_int 0) (write_int 0)
     (write_int 1) (write_int 0) (write_int 100) (write_int 0) []
     (Or.inl rfl) (by decide) (by decide) (by decide) (by decide) (by decide)
     (by decide) (by decide) (by decide) (by decide)⟩


/-- Claim C1 (amended): for every canonical TOC byte stream (a well-formed
header, count, and well-formed entries), the rewrite pass reproduces the
input byte-for-byte — header, entry count and every entry — when either
no entry is a matching schema entry, or every matching schema entry
yields the requested name as the original name AND every entry's
rewritten fields are absent or valid UTF-8.  (The UTF-8 proviso is needed
because `replace_dbname` decodes fields with `String::from_utf8_lossy`
and re-encodes them.) -/
theorem claim_c1 (h : TocHeader) (es : List TocEntry) (dbname : List Nat)
    (hwh : wfHeader h) (hwe : ∀ te ∈ es, wfEntry te)
    (hcnt : es.length < 2147483648)
    (hcase : (∀ te ∈ es, ¬ isMatch te) ∨
      ((∀ te ∈ es, isMatch te → computedOrig te = dbname) ∧
       (∀ te ∈ es, entryUtf8 te))) :
    ∃ o m, tocPass (encodeToc h es) dbname = some (encodeToc h es, o, m) := by
  rcases hcase with hnm | ⟨hm, hu⟩
  · refine ⟨[], scanMap es [], tocPass_eq h es dbname hwh hcnt _ _ ?_⟩
    have hl := entriesLoop_nomatch dbname es [] [] hwe hnm
    rwa [List.append_nil] at hl
  · refine ⟨scanOrig es [], scanMap es [],
      tocPass_eq h es dbname hwh hcnt _ _ ?_⟩
    have hl := entriesLoop_samename dbname es [] [] [] hwe hm hu (Or.inl rfl)
    rwa [List.append_nil] at hl

/-- Claim C1 witness: a canonical one-entry stream with no matching
schema entry round-trips byte-for-byte. -/
theorem claim_c1_witness :
    (wfHeader sampleHeader ∧ (∀ te ∈ [emptyEntry], wfEntry te) ∧
      ([emptyEntry] : List TocEntry).length < 2147483648 ∧
      (∀ te ∈ [emptyEntry], ¬ isMatch te)) ∧
    ∃ o m, tocPass (encodeToc sampleHeader [emptyEntry]) (strCodes "bolt")
      = some (encodeToc sampleHeader [emptyEntry], o, m) :=
  ⟨⟨by decide, by decide, by decide, by decide⟩,
   claim_c1 sampleHeader [emptyEntry] (strCodes "bolt") (by decide) (by decide)
     (by decide) (Or.inl (by decide))⟩

set_option maxRecDepth 100000 in
/-- Claim C1 counterexample: a canonical stream whose matching schema
entry is tagged `d_dbo` (so the discovered original name is `d`) and
whose definition field holds the non-UTF-8 byte 0xFF.  Rewriting with the
new name equal to the original name `d` does NOT reproduce the input:
the 0xFF byte is lossily re-encoded as U+FFFD. -/
theorem claim_c1_counterexample :
    wfHeader sampleHeader ∧ wfEntry badUtf8Entry ∧
    Option.map (fun r => r.2.1)
      (tocPass (encodeToc sampleHeader [badUtf8Entry]) (strCodes "d"))
      = some (strCodes "d") ∧
    Option.map (fun r => r.1)
      (tocPass (encodeToc sampleHeader [badUtf8Entry]) (strCodes "d"))
      ≠ some (encodeToc sampleHeader [badUtf8Entry]) := by decide

/-- Claim C6 (amended): on a canonical TOC stream with no matching schema
entry, the per-entry rewriting is a no-op and the streaming pass yields a
byte-for-byte copy; but `rewrite_toc` as a whole completes without error
only if the archive also maps the four tracked babelfish tables — when
`babelfish_authid_user_ext` is unmapped the pass fails with a
Table-not-found error. -/
theorem claim_c6 (h : TocHeader) (es : List TocEntry) (dbname : List Nat)
    (hwh : wfHeader h) (hwe : ∀ te ∈ es, wfEntry te)
    (hcnt : es.length < 2147483648)
    (hnm : ∀ te ∈ es, ¬ isMatch te) :
    tocPass (encodeToc h es) dbname = some (encodeToc h es, [], scanMap es []) ∧
    (mapGet (scanMap es []) (strCodes "babelfish_authid_user_ext") = none →
      rewrite_toc (encodeToc h es) dbname =
        Except.error "Table not found: babelfish_authid_user_ext") := by
  have hpass : tocPass (encodeToc h es) dbname
      = some (encodeToc h es, [], scanMap es []) := by
    apply tocPass_eq h es dbname hwh hcnt
    have hl := entriesLoop_nomatch dbname es [] [] hwe hnm
    rwa [List.append_nil] at hl
  refine ⟨hpass, fun hmget => ?_⟩
  unfold rewrite_toc rewrite_dbname_in_tables
  rw [hpass]
  dsimp only
  rw [hmget]

/-- Claim C6 witness: a canonical zero-entry stream. -/
theorem claim_c6_witness :
    (wfHeader sampleHeader ∧ (∀ te ∈ ([] : List TocEntry), wfEntry te) ∧
      ([] : List TocEntry).length < 2147483648 ∧
      (∀ te ∈ ([] : List TocEntry), ¬ isMatch te) ∧
      mapGet (scanMap [] []) (strCodes "babelfish_authid_user_ext") = none) ∧
    (tocPass (encodeToc sampleHeader []) (strCodes "newdb")
      = some (encodeToc sampleHeader [], [], scanMap [] []) ∧
     (mapGet (scanMap ([] : List TocEntry) []) (strCodes "babelfish_authid_user_ext") = none →
      rewrite_toc (encodeToc sampleHeader []) (strCodes "newdb")
        = Except.error "Table not found: babelfish_authid_user_ext")) :=
  ⟨⟨by decide, by decide, by decide, by decide, by decide⟩,
   claim_c6 sampleHeader [] (strCodes "newdb") (by decide) (by decide)
     (by decide) (by decide)⟩

/-- Claim C6 counterexample: the same zero-entry canonical stream has no
matching schema entry and copies byte-for-byte, yet `rewrite_toc` does
NOT complete without error — it fails because no babelfish table was
mapped. -/
theorem claim_c6_counterexample :
    wfHeader sampleHeader ∧
    tocPass (encodeToc sampleHeader []) (strCodes "newdb")
      = some (encodeToc sampleHeader [], [], []) ∧
    rewrite_toc (encodeToc sampleHeader []) (strCodes "newdb")
      = Except.error "Table not found: babelfish_authid_user_ext" := by
  refine ⟨by decide, by decide, ?_⟩
  rfl


/-- Claim C7 counterexample: with created roles `x_db_owner` and
`x_guest`, a failure while dropping `x_db_owner` aborts the loop: the
droppable `x_guest` is never dropped (final state unchanged, dropped list
empty), contradicting best-effort rollback. -/
theorem claim_c7_counterexample :
    drop_created_roles (fun r => r == "x_db_owner".toList)
      ["x_db_owner".toList, "x_guest".toList]
      ["x_db_owner".toList, "x_guest".toList]
      = (["x_db_owner".toList, "x_guest".toList], [], some ("x_db_owner".toList)) ∧
    (fun r => r == "x_db_owner".toList) "x_guest".toList = false := by decide

/-- Claim C7 (amended): role rollback is not best-effort — the
`client.execute(DROP ROLE ...)?` in the loop propagates the first
failure, so exactly the roles before the first failing one are dropped,
the failing and all later roles are left in place, and the first failing
role is reported. -/
theorem claim_c7 (fails : List Char → Bool) (r : List Char)
    (post : List (List Char)) :
    ∀ pre : List (List Char), ∀ st : List (List Char),
    (∀ x ∈ pre, fails x = false) → fails r = true →
    drop_created_roles fails st (pre ++ r :: post) =
      (pre.foldl drop_role st, pre, some r) := by
  intro pre
  induction pre with
  | nil =>
    intro st _ hr
    simp only [List.nil_append, List.foldl_nil]
    unfold drop_created_roles
    rw [if_pos hr]
  | cons p ps ih =>
    intro st hpre hr
    have hp : fails p = false := hpre p (by simp)
    simp only [List.cons_append, List.foldl_cons]
    unfold drop_created_roles
    rw [if_neg (by rw [hp]; intro hcon; cases hcon)]
    rw [ih (drop_role st p) (fun x hx => hpre x (by simp [hx])) hr]

/-- Claim C7 witness: dropping stops at the failing `x_guest` after the
successful `x_dbo`. -/
theorem claim_c7_witness :
    ((∀ x ∈ (["x_dbo".toList] : List (List Char)),
        (fun t => t == "x_guest".toList) x = false) ∧
      (fun t => t == "x_guest".toList) "x_guest".toList = true) ∧
    drop_created_roles (fun t => t == "x_guest".toList)
      ["x_dbo".toList, "x_guest".toList]
      (["x_dbo".toList] ++ "x_guest".toList :: []) =
      ((["x_dbo".toList] : List (List Char)).foldl drop_role
        ["x_dbo".toList, "x_guest".toList], ["x_dbo".toList],
        some ("x_guest".toList)) :=
  ⟨⟨by decide, by decide⟩,
   claim_c7 (fun t => t == "x_guest".toList) ("x_guest".toList) []
     ["x_dbo".toList] ["x_dbo".toList, "x_guest".toList]
     (by decide) (by decide)⟩


/-- When every DROP succeeds, rollback drops exactly the listed roles. -/
theorem drop_created_roles_all (roles : List (List Char)) :
    ∀ st : List (List Char),
    drop_created_roles (fun _ => false) st roles =
      (roles.foldl drop_role st, roles, none) := by
  induction roles with
  | nil => intro st; rfl
  | cons r rs ih =>
    intro st
    unfold drop_created_roles
    rw [if_neg (by intro hcon; cases hcon)]
    rw [ih (drop_role st r)]
    simp [List.foldl_cons]

/-- Membership in the role state after a sequence of successful drops. -/
theorem mem_foldl_drop (y : List Char) : ∀ (rs : List (List Char)),
    ∀ st : List (List Char),
    (y ∈ rs.foldl drop_role st ↔ y ∈ st ∧ y ∉ rs) := by
  intro rs
  induction rs with
  | nil => intro st; simp
  | cons r rs ih =>
    intro st
    rw [List.foldl_cons, ih (drop_role st r)]
    simp only [drop_role, List.mem_filter, bne_iff_ne, List.mem_cons]
    constructor
    · rintro ⟨⟨hy, hne⟩, hnin⟩
      refine ⟨hy, ?_⟩
      rintro (hh | hh)
      · exact hne hh
      · exact hnin hh
    · rintro ⟨hy, hnor⟩
      exact ⟨⟨hy, fun hh => hnor (Or.inl hh)⟩, fun hh => hnor (Or.inr hh)⟩

/-- Distinct suffixes after a common prefix give distinct role names. -/
theorem app_suffix_ne (x : List Char) (a b : List Char) (h : a ≠ b) :
    x ++ a ≠ x ++ b := by
  intro hcon
  exact h (List.append_cancel_left hcon)


/-- Characterization of role provisioning when `X_dbo` pre-exists and
`X_guest` does not: the created list contains `X_guest`, plus
`X_db_owner` exactly when it did not pre-exist, and never `X_dbo`. -/
theorem restore_global_data_eq (st : List (List Char)) (x : List Char)
    (hdbo : (x ++ "_dbo".toList) ∈ st) (hguest : (x ++ "_guest".toList) ∉ st) :
    (restore_global_data st x =
        (st ++ [x ++ "_guest".toList], [x ++ "_guest".toList]) ∧
      (x ++ "_db_owner".toList) ∈ st) ∨
    (restore_global_data st x =
        (st ++ [x ++ "_db_owner".toList] ++ [x ++ "_guest".toList],
          [x ++ "_db_owner".toList, x ++ "_guest".toList]) ∧
      (x ++ "_db_owner".toList) ∉ st) := by
  have e1 : ("_".toList ++ "db_owner".toList : List Char) = "_db_owner".toList := by decide
  have e2 : ("_".toList ++ "dbo".toList : List Char) = "_dbo".toList := by decide
  have e3 : ("_".toList ++ "guest".toList : List Char) = "_guest".toList := by decide
  have hne_g_bow : (x ++ "_guest".toList) ≠ (x ++ "_db_owner".toList) :=
    app_suffix_ne x _ _ (by decide)
  unfold restore_global_data create_role_if_not_exist
  rw [e1, e2, e3]
  by_cases hbow : (x ++ "_db_owner".toList) ∈ st
  · left
    refine ⟨?_, hbow⟩
    rw [if_pos hbow]
    dsimp only
    rw [if_pos hdbo]
    dsimp only
    rw [if_neg hguest]
    simp [Option.toList]
  · right
    refine ⟨?_, hbow⟩
    rw [if_neg hbow]
    dsimp only
    rw [if_pos (List.mem_append.mpr (Or.inl hdbo))]
    dsimp only
    rw [if_neg (by
      intro hcon
      rcases List.mem_append.mp hcon with hin | hin
      · exact hguest hin
      · exact hne_g_bow (by simp at hin))]
    simp [Option.toList]

/-- Claim C8: if role `X_dbo` pre-exists and `X_guest` does not,
provisioning creates (and records) `X_guest` but not `X_dbo`, and a
rollback over the recorded roles issues drops for exactly the recorded
roles: `X_guest` is removed while the pre-existing `X_dbo` survives. -/
theorem claim_c8 (st : List (List Char)) (x : List Char)
    (hdbo : (x ++ "_dbo".toList) ∈ st) (hguest : (x ++ "_guest".toList) ∉ st) :
    (x ++ "_dbo".toList) ∉ (restore_global_data st x).2 ∧
    (x ++ "_guest".toList) ∈ (restore_global_data st x).2 ∧
    (drop_created_roles (fun _ => false) (restore_global_data st x).1
        (restore_global_data st x).2).2.1 = (restore_global_data st x).2 ∧
    (x ++ "_dbo".toList) ∈ (drop_created_roles (fun _ => false)
        (restore_global_data st x).1 (restore_global_data st x).2).1 ∧
    (x ++ "_guest".toList) ∉ (drop_created_roles (fun _ => false)
        (restore_global_data st x).1 (restore_global_data st x).2).1 := by
  have hne_dbo_bow : (x ++ "_dbo".toList) ≠ (x ++ "_db_owner".toList) :=
    app_suffix_ne x _ _ (by decide)
  have hne_dbo_g : (x ++ "_dbo".toList) ≠ (x ++ "_guest".toList) :=
    app_suffix_ne x _ _ (by decide)
  rcases restore_global_data_eq st x hdbo hguest with ⟨heq, _⟩ | ⟨heq, _⟩
  · rw [heq]
    rw [drop_created_roles_all]
    refine ⟨by simp [hne_dbo_g], by simp, rfl, ?_, ?_⟩
    · rw [mem_foldl_drop]
      refine ⟨List.mem_append.mpr (Or.inl hdbo), by simp [hne_dbo_g]⟩
    · rw [mem_foldl_drop]
      simp
  · rw [heq]
    rw [drop_created_roles_all]
    refine ⟨by simp [hne_dbo_g, hne_dbo_bow], by simp, rfl, ?_, ?_⟩
    · rw [mem_foldl_drop]
      refine ⟨List.mem_append.mpr (Or.inl (List.mem_append.mpr (Or.inl hdbo))),
        by simp [hne_dbo_g, hne_dbo_bow]⟩
    · rw [mem_foldl_drop]
      simp

/-- Claim C8 witness: with `x_dbo` pre-existing and no other roles,
provisioning records `x_db_owner` and `x_guest` only, and rollback leaves
`x_dbo` in place while removing `x_guest`. -/
theorem claim_c8_witness :
    (("x".toList ++ "_dbo".toList) ∈ (["x_dbo".toList] : List (List Char)) ∧
      ("x".toList ++ "_guest".toList) ∉ (["x_dbo".toList] : List (List Char))) ∧
    (("x".toList ++ "_dbo".toList) ∉ (restore_global_data ["x_dbo".toList] "x".toList).2 ∧
      ("x".toList ++ "_guest".toList) ∈ (restore_global_data ["x_dbo".toList] "x".toList).2 ∧
      (drop_created_roles (fun _ => false) (restore_global_data ["x_dbo".toList] "x".toList).1
          (restore_global_data ["x_dbo".toList] "x".toList).2).2.1
        = (restore_global_data ["x_dbo".toList] "x".toList).2 ∧
      ("x".toList ++ "_dbo".toList) ∈ (drop_created_roles (fun _ => false)
          (restore_global_data ["x_dbo".toList] "x".toList).1
          (restore_global_data ["x_dbo".toList] "x".toList).2).1 ∧
      ("x".toList ++ "_guest".toList) ∉ (drop_created_roles (fun _ => false)
          (restore_global_data ["x_dbo".toList] "x".toList).1
          (restore_global_data ["x_dbo".toList] "x".toList).2).1) :=
  ⟨⟨by decide, by decide⟩,
   claim_c8 ["x_dbo".toList] "x".toList (by decide) (by decide)⟩

end WdbBackup
